import Mathlib

/-!
Shallow embedding of the review agent in `src/src/workers/review-agent.ts`
(class `ReviewAgent`), together with the data shapes from
`src/src/types/interfaces.ts`, and theorems checking the specification's
claims about it.

Modelling conventions:
- JavaScript strings are modelled as `List Char`.  JavaScript regular
  expressions are embedded as explicit backtracking scanners specialized to
  the patterns appearing in the source, reproducing greedy/lazy quantifier
  semantics and the case-insensitive flag (ASCII folding; every literal in
  the source patterns is ASCII).
- `crypto.randomUUID()` identifiers and `Date` timestamps carried inside
  suggestion and response records are opaque to every claim, so the record
  types omit them.  Numeric `confidence` is modelled as `Rat`.
- The Workers AI completion call is an external oracle: its outcome is a
  parameter of type `Option (List Char)` (`none` models the call throwing,
  `some t` models a response text `t`).  Likewise a D1 write that throws is
  modelled by a boolean failure flag per write, and the conversation store
  by an explicit list.
-/

/-- JavaScript whitespace class: the set matched by a backslash-s escape in a
regular expression (also the set trimmed by `String.prototype.trim`). -/
def isWS (c : Char) : Bool :=
  c == ' ' || c == '\t' || c == '\n' || c == '\r' ||
  c.toNat == 11 || c.toNat == 12 || c.toNat == 160 || c.toNat == 5760 ||
  (decide (8192 ≤ c.toNat ∧ c.toNat ≤ 8202)) ||
  c.toNat == 8232 || c.toNat == 8233 || c.toNat == 8239 ||
  c.toNat == 8287 || c.toNat == 12288 || c.toNat == 65279

/-- Characters matched by an (unflagged) regular-expression dot: everything
except the four JavaScript line terminators. -/
def isDotChar (c : Char) : Bool :=
  !(c == '\n' || c == '\r' || c.toNat == 8232 || c.toNat == 8233)

/-- Characters matched by a backslash-w escape. -/
def isWordChar (c : Char) : Bool :=
  c.isAlpha || c.isDigit || c == '_'

/-- ASCII lower-casing of one character (`String.prototype.toLowerCase` on the
ASCII range; every comparison keyword in the source is ASCII). -/
def lowerChar (c : Char) : Char :=
  if 'A' ≤ c ∧ c ≤ 'Z' then Char.ofNat (c.toNat + 32) else c

/-- ASCII lower-casing of a string. -/
def lowerStr (s : List Char) : List Char := s.map lowerChar

/-- `String.prototype.trim`. -/
def jsTrim (s : List Char) : List Char :=
  ((s.dropWhile isWS).reverse.dropWhile isWS).reverse

/-- `String.prototype.split` with a single-character separator. -/
def splitOn (sep : Char) : List Char → List (List Char)
  | [] => [[]]
  | c :: rest =>
    let r := splitOn sep rest
    if c = sep then [] :: r
    else
      match r with
      | [] => [[c]]
      | h :: t => (c :: h) :: t

/-- Does `s` start with `p` (exact characters)? -/
def startsWithL : List Char → List Char → Bool
  | [], _ => true
  | _ :: _, [] => false
  | p :: ps, c :: cs => p == c && startsWithL ps cs

/-- `String.prototype.includes`: is `needle` a contiguous substring of the
second argument? -/
def containsL (needle : List Char) : List Char → Bool
  | [] => needle.isEmpty
  | c :: rest => startsWithL needle (c :: rest) || containsL needle rest

/-- Numeric value of a digit string (`parseInt` on an all-digit string). -/
def natOfDigits (ds : List Char) : Nat :=
  ds.foldl (fun a c => a * 10 + (c.toNat - 48)) 0

/-- JavaScript `parseInt` restricted to the argument shapes reachable in the
source (optional leading whitespace, then digits; no sign or radix prefix can
occur there): `none` models a `NaN` result. -/
def jsParseInt (s : List Char) : Option Nat :=
  let t := s.dropWhile isWS
  let ds := t.takeWhile Char.isDigit
  if ds.isEmpty then none else some (natOfDigits ds)

/-- Consume the literal `pat` case-insensitively (the `i` regex flag, ASCII
folding); returns the rest of the input on success. -/
def matchCI : List Char → List Char → Option (List Char)
  | [], s => some s
  | _ :: _, [] => none
  | p :: ps, c :: cs => if lowerChar c = lowerChar p then matchCI ps cs else none

/-! ### The strict-grammar pattern

The source scans `aiResponse` with the global case-insensitive pattern

  `Line\s+(\d+):\s+(\w+)\s+(.+?)\s+\|\s+Fix:\s+(.+)`

The scanners below reproduce its backtracking behaviour: all character
classes adjacent to disjoint classes are deterministic; the whitespace run
before the lazy description group and the one before the final greedy capture
are the two genuine backtracking points. -/

/-- One raw match of the strict-grammar pattern: the digit capture, the type
tag capture, the (untrimmed) description capture and fix capture. -/
structure IssueMatch where
  numD : List Char
  tag : List Char
  descRaw : List Char
  fixRaw : List Char
deriving DecidableEq, Repr

def lineLit : List Char := "line".toList

def fixColonLit : List Char := "fix:".toList

/-- Final part of the pattern, `\s+(.+)`: try the whitespace run from longest
to shortest; the greedy capture takes every following non-terminator
character and must be nonempty. Returns (capture, remainder). -/
def tryFixW : Nat → List Char → Option (List Char × List Char)
  | 0, _ => none
  | k + 1, s =>
    let rest := s.drop (k + 1)
    let p := rest.takeWhile isDotChar
    if p.isEmpty then tryFixW k s else some (p, rest.drop p.length)

/-- `\s+(.+)` at the current position. -/
def matchFixCapture (s : List Char) : Option (List Char × List Char) :=
  tryFixW (s.takeWhile isWS).length s

/-- The delimiter-and-fix part `\s+\|\s+Fix:\s+(.+)` right after the lazy
description: both inner whitespace runs are deterministic because neither a
pipe nor an `F` is whitespace. Returns (fix capture, remainder). -/
def matchMiddle (s : List Char) : Option (List Char × List Char) :=
  let w1 := s.takeWhile isWS
  if w1.isEmpty then none
  else
    match s.drop w1.length with
    | '|' :: s2 =>
      let w2 := s2.takeWhile isWS
      if w2.isEmpty then none
      else
        match matchCI fixColonLit (s2.drop w2.length) with
        | some s3 => matchFixCapture s3
        | none => none
    | _ => none

/-- The lazy description `(.+?)` followed by `matchMiddle`: grow the capture
one character at a time (never across a line terminator), checking the
continuation after each step. Returns (description, fix, remainder). -/
def lazyDesc (acc : List Char) : List Char → Option (List Char × List Char × List Char)
  | [] => none
  | c :: rest =>
    if isDotChar c then
      match matchMiddle rest with
      | some (fx, rem) => some ((c :: acc).reverse, fx, rem)
      | none => lazyDesc (c :: acc) rest
    else none

/-- The whitespace run `\s+` before the lazy description, tried from longest
to shortest. -/
def tryWsDesc : Nat → List Char → Option (List Char × List Char × List Char)
  | 0, _ => none
  | k + 1, s =>
    match lazyDesc [] (s.drop (k + 1)) with
    | some r => some r
    | none => tryWsDesc k s

def matchAfterTag (s : List Char) : Option (List Char × List Char × List Char) :=
  tryWsDesc (s.takeWhile isWS).length s

/-- Try the whole strict-grammar pattern anchored at the current position;
returns the captures and the remainder of the input after the match. -/
def matchIssueAt (s : List Char) : Option (IssueMatch × List Char) :=
  match matchCI lineLit s with
  | none => none
  | some s1 =>
    let w1 := s1.takeWhile isWS
    if w1.isEmpty then none
    else
      let s2 := s1.drop w1.length
      let ds := s2.takeWhile Char.isDigit
      if ds.isEmpty then none
      else
        match s2.drop ds.length with
        | ':' :: s3 =>
          let w2 := s3.takeWhile isWS
          if w2.isEmpty then none
          else
            let s4 := s3.drop w2.length
            let tg := s4.takeWhile isWordChar
            if tg.isEmpty then none
            else
              match matchAfterTag (s4.drop tg.length) with
              | some (d, f, rem) => some (⟨ds, tg, d, f⟩, rem)
              | none => none
        | _ => none

/-- Global scan (`g` flag): find all non-overlapping matches left to right,
resuming after each match; on failure at a position, advance one character.
Fuelled structural recursion; every step consumes at least one character, so
fuel equal to the input length never runs out. -/
def findIssueMatchesF : Nat → List Char → List IssueMatch
  | 0, _ => []
  | _ + 1, [] => []
  | f + 1, c :: rest =>
    match matchIssueAt (c :: rest) with
    | some (m, rem) => m :: findIssueMatchesF f rem
    | none => findIssueMatchesF f rest

def findIssueMatches (s : List Char) : List IssueMatch :=
  findIssueMatchesF s.length s

/-! ### Suggestion records and the strict-grammar tier -/

/-- The four severity strings assigned in the source. -/
inductive Severity
  | low
  | medium
  | high
  | critical
deriving DecidableEq, Repr

/-- A `CodeSuggestion` as produced by the parser.  `type` is a runtime string:
the source casts the lower-cased matched tag without validating it against the
declared five-value union, so the field genuinely ranges over arbitrary
strings.  `id` (a random UUID) and the never-assigned `column` are omitted. -/
structure Suggestion where
  type : List Char
  severity : Severity
  line : Option Nat := none
  message : List Char
  suggestion : Option (List Char) := none
  explanation : List Char
deriving DecidableEq, Repr

def tySecurity : List Char := "security".toList

def tyBug : List Char := "bug".toList

def tyStyle : List Char := "style".toList

def tyPerformance : List Char := "performance".toList

def tyOptimization : List Char := "optimization".toList

/-- Severity chain of the strict tier (source lines 160-168): the variable
starts at `medium` and is reassigned by an if/else-if chain on the tag. -/
def tierOneSeverity (ty : List Char) : Severity :=
  if ty = tySecurity ∨ ty = tyBug then Severity.high
  else if ty = tyStyle then Severity.low
  else if ty = tyPerformance ∨ ty = tyOptimization then Severity.medium
  else Severity.medium

def expFoundIn : List Char := " Found in: \"".toList

def expQuoteSugFix : List Char := "\". Suggested fix: ".toList

/-- Build the suggestion for one strict-grammar match, bounds-checking the
line number against the split code lines (out-of-range matches produce
nothing). -/
def tier1Build (lines : List (List Char)) (m : IssueMatch) : Option Suggestion :=
  let n := natOfDigits m.numD
  let ty := lowerStr m.tag
  let desc := jsTrim m.descRaw
  let fx := jsTrim m.fixRaw
  if 0 < n ∧ n ≤ lines.length then
    some
      { type := ty
        severity := tierOneSeverity ty
        line := some n
        message := desc
        suggestion := some fx
        explanation := desc ++ expFoundIn ++ jsTrim (lines.getD (n - 1) []) ++ expQuoteSugFix ++ fx }
  else none

/-- Tier 1 of `parseAIResponse`: all strict-grammar matches, in order, each
bounds-checked. -/
def strictGrammarTier (text : List Char) (lines : List (List Char)) : List Suggestion :=
  (findIssueMatches text).filterMap (tier1Build lines)

/-! ### The heuristic-block tier -/

/-- Lookahead of the section-splitting pattern
`\n(?=#{1,6}\s|\d+\.\s|\*\s|\-\s|###|##|#)`: note the bare `#` alternative
makes any hash after the newline split. -/
def splitMarker (rest : List Char) : Bool :=
  match rest with
  | [] => false
  | c :: cs =>
    if c = '#' then true
    else if c = '*' then
      match cs with
      | c2 :: _ => isWS c2
      | [] => false
    else if c = '-' then
      match cs with
      | c2 :: _ => isWS c2
      | [] => false
    else if c.isDigit then
      match rest.drop (rest.takeWhile Char.isDigit).length with
      | '.' :: c2 :: _ => isWS c2
      | _ => false
    else false

/-- `aiResponse.split(...)`: split at each newline whose lookahead matches;
the newline is consumed, the lookahead characters are kept. -/
def splitSections : List Char → List (List Char)
  | [] => [[]]
  | c :: rest =>
    let r := splitSections rest
    if c = '\n' ∧ splitMarker rest then [] :: r
    else
      match r with
      | [] => [[c]]
      | h :: t => (c :: h) :: t

/-- Try `line\s+(\d+)` (case-insensitively) anchored at the current position;
returns the full matched substring (with its original characters) and the
remainder.  All three parts are deterministic (adjacent classes disjoint). -/
def matchLineAt (s : List Char) : Option (List Char × List Char) :=
  match matchCI lineLit s with
  | none => none
  | some s1 =>
    let w := s1.takeWhile isWS
    if w.isEmpty then none
    else
      let s2 := s1.drop w.length
      let ds := s2.takeWhile Char.isDigit
      if ds.isEmpty then none
      else some (s.take (4 + w.length + ds.length), s2.drop ds.length)

/-- Global scan for `line\s+(\d+)` matches (`section.match(/line\s+(\d+)/gi)`),
returning the full matched substrings. -/
def findLineMentionsF : Nat → List Char → List (List Char)
  | 0, _ => []
  | _ + 1, [] => []
  | f + 1, c :: rest =>
    match matchLineAt (c :: rest) with
    | some (m, rem) => m :: findLineMentionsF f rem
    | none => findLineMentionsF f rest

def findLineMentions (s : List Char) : List (List Char) :=
  findLineMentionsF s.length s

/-- `parseInt(match.split(' ')[1])` on one full match substring: the source
splits the matched text on a single space and parses the second chunk instead
of using the digit capture, so any separator other than chunks recoverable
across single spaces yields `NaN` (modelled as `none`). -/
def mentionNum (m : List Char) : Option Nat :=
  match (splitOn ' ' m).get? 1 with
  | none => none
  | some comp => jsParseInt comp

def kwVulnerability : List Char := "vulnerability".toList

def kwInjection : List Char := "injection".toList

def kwXss : List Char := "xss".toList

def kwCsrf : List Char := "csrf".toList

def kwAuthentication : List Char := "authentication".toList

def kwCritical : List Char := "critical".toList

def kwSevere : List Char := "severe".toList

def kwError : List Char := "error".toList

def kwUndefined : List Char := "undefined".toList

def kwNull : List Char := "null".toList

def kwException : List Char := "exception".toList

def kwCrash : List Char := "crash".toList

def kwUnterminated : List Char := "unterminated".toList

def kwMissing : List Char := "missing".toList

def kwSlow : List Char := "slow".toList

def kwInefficient : List Char := "inefficient".toList

def kwOptimize : List Char := "optimize".toList

def kwBottleneck : List Char := "bottleneck".toList

def kwMemory : List Char := "memory".toList

def kwImprove : List Char := "improve".toList

def kwBetter : List Char := "better".toList

def kwRefactor : List Char := "refactor".toList

/-- `analyzeSectionType`: keyword scan over the lower-cased section. -/
def analyzeSectionType (sec : List Char) : List Char × Severity :=
  let low := lowerStr sec
  if containsL tySecurity low || containsL kwVulnerability low ||
      containsL kwInjection low || containsL kwXss low ||
      containsL kwCsrf low || containsL kwAuthentication low then
    (tySecurity,
      if containsL kwCritical low || containsL kwSevere low then Severity.critical
      else Severity.high)
  else if containsL tyBug low || containsL kwError low ||
      containsL kwUndefined low || containsL kwNull low ||
      containsL kwException low || containsL kwCrash low ||
      containsL kwUnterminated low || containsL kwMissing low then
    (tyBug,
      if containsL kwCritical low || containsL kwSevere low then Severity.critical
      else Severity.high)
  else if containsL tyPerformance low || containsL kwSlow low ||
      containsL kwInefficient low || containsL kwOptimize low ||
      containsL kwBottleneck low || containsL kwMemory low then
    (tyPerformance, Severity.medium)
  else if containsL tyOptimization low || containsL kwImprove low ||
      containsL kwBetter low || containsL kwRefactor low then
    (tyOptimization, Severity.medium)
  else (tyStyle, Severity.low)

/-- The backquote character (delimiter of the inline-code replace). -/
def backquoteChar : Char := Char.ofNat 96

/-- Lazy scan to a two-character closing delimiter `dd` (for the global
replace of a pattern like two stars, lazy group, two stars): returns the
capture and the remainder after the closer. The close test precedes
consumption, so the capture is minimal; the capture may not cross a line
terminator. -/
def scanCloseTwo (d : Char) (acc : List Char) : List Char → Option (List Char × List Char)
  | [] => none
  | [_] => none
  | c :: c2 :: rest =>
    if c = d ∧ c2 = d then some (acc.reverse, rest)
    else if isDotChar c then scanCloseTwo d (c :: acc) (c2 :: rest)
    else none

/-- Lazy scan to a one-character closing delimiter (capture may be empty). -/
def scanCloseOne (d : Char) (acc : List Char) : List Char → Option (List Char × List Char)
  | [] => none
  | c :: rest =>
    if c = d then some (acc.reverse, rest)
    else if isDotChar c then scanCloseOne d (c :: acc) rest
    else none

/-- Global replace of `dd(.*?)dd` by the capture (the double-star markdown
strip).  On failure at an opener the scan advances one character, copying
text verbatim, as a global regex replace does. -/
def replaceTwo (d : Char) : Nat → List Char → List Char
  | 0, s => s
  | _ + 1, [] => []
  | f + 1, c :: cs =>
    if c = d then
      match cs with
      | c2 :: rest =>
        if c2 = d then
          match scanCloseTwo d [] rest with
          | some (cap, rem) => cap ++ replaceTwo d f rem
          | none => c :: replaceTwo d f cs
        else c :: replaceTwo d f cs
      | [] => [c]
    else c :: replaceTwo d f cs

/-- Global replace of `d(.*?)d` by the capture (single star, backquote). -/
def replaceOne (d : Char) : Nat → List Char → List Char
  | 0, s => s
  | _ + 1, [] => []
  | f + 1, c :: cs =>
    if c = d then
      match scanCloseOne d [] cs with
      | some (cap, rem) => cap ++ replaceOne d f rem
      | none => c :: replaceOne d f cs
    else c :: replaceOne d f cs

/-- Anchored replace of one-or-more hashes then optional whitespace. -/
def stripLeadHashes (s : List Char) : List Char :=
  match s with
  | '#' :: _ => (s.dropWhile (fun c => c == '#')).dropWhile isWS
  | _ => s

/-- Anchored replace of digits, a dot, then optional whitespace. -/
def stripLeadNumDot (s : List Char) : List Char :=
  let ds := s.takeWhile Char.isDigit
  if ds.isEmpty then s
  else
    match s.drop ds.length with
    | '.' :: rest => rest.dropWhile isWS
    | _ => s

/-- Anchored replace of a star then optional whitespace. -/
def stripLeadStar (s : List Char) : List Char :=
  match s with
  | '*' :: rest => rest.dropWhile isWS
  | _ => s

/-- Anchored replace of a dash then optional whitespace. -/
def stripLeadDash (s : List Char) : List Char :=
  match s with
  | '-' :: rest => rest.dropWhile isWS
  | _ => s

def wIssue : List Char := "issue".toList

def wProblem : List Char := "problem".toList

def wConcern : List Char := "concern".toList

def wSuggestion : List Char := "suggestion".toList

def wErrorWord : List Char := "error".toList

def wBugWord : List Char := "bug".toList

/-- Alternatives of the anchored prefix-strip pattern, in source order. -/
def issueWords : List (List Char) :=
  [wIssue, wProblem, wConcern, wSuggestion, wErrorWord, wBugWord]

/-- Anchored case-insensitive strip of `(Issue|Problem|...)[:\s]+`: the first
alternative that is a prefix and is followed by at least one colon or
whitespace wins; the greedy run after it is removed. -/
def stripIssueWordGo : List (List Char) → List Char → List Char
  | [], s => s
  | w :: rest, s =>
    match matchCI w s with
    | some s1 =>
      let r := s1.takeWhile (fun c => c == ':' || isWS c)
      if r.isEmpty then stripIssueWordGo rest s else s1.drop r.length
    | none => stripIssueWordGo rest s

def ellipsisLit : List Char := "...".toList

/-- `extractIssueDescription`: markdown strips, first nonempty line, prefix
strip, 120-character truncation. -/
def extractIssueDescription (sec : List Char) : List Char :=
  let d1 := replaceTwo '*' sec.length sec
  let d2 := replaceOne '*' d1.length d1
  let d3 := replaceOne backquoteChar d2.length d2
  let d4 := stripLeadDash (stripLeadStar (stripLeadNumDot (stripLeadHashes d3)))
  let ls := (splitOn '\n' d4).filter (fun l => !(jsTrim l).isEmpty)
  let d5 :=
    match ls with
    | [] => d4
    | l :: _ => stripIssueWordGo issueWords (jsTrim l)
  if 120 < d5.length then d5.take 120 ++ ellipsisLit else d5

def wFix : List Char := "fix".toList

def wSolution : List Char := "solution".toList

def wRecommendation : List Char := "recommendation".toList

def wShould : List Char := "should".toList

def wCould : List Char := "could".toList

def wConsider : List Char := "consider".toList

def wUse : List Char := "use".toList

def wTry : List Char := "try".toList

def wReplace : List Char := "replace".toList

def fixWordsA : List (List Char) := [wFix, wSolution, wSuggestion, wRecommendation]

def fixWordsB : List (List Char) := [wShould, wCould, wConsider]

def fixWordsC : List (List Char) := [wUse, wTry, wReplace]

/-- The `[:\s]+(.+?)(?:\n|$)` tail of a fix pattern: the colon-or-whitespace
run is tried from longest to shortest; the lazy capture then deterministically
extends to the next newline or the end of input, must be nonempty, and fails
if a non-newline line terminator intervenes. -/
def fixTailCap : Nat → List Char → Option (List Char)
  | 0, _ => none
  | k + 1, s =>
    let rest := s.drop (k + 1)
    let p := rest.takeWhile isDotChar
    if p.isEmpty then fixTailCap k s
    else
      match rest.drop p.length with
      | [] => some p
      | c :: _ => if c = '\n' then some p else fixTailCap k s

/-- Try each lead-in word of one fix pattern at the current position. -/
def tryFixWordsAt : List (List Char) → List Char → Option (List Char)
  | [], _ => none
  | w :: rest, s =>
    match matchCI w s with
    | some s1 =>
      match fixTailCap (s1.takeWhile (fun c => c == ':' || isWS c)).length s1 with
      | some cap => some cap
      | none => tryFixWordsAt rest s
    | none => tryFixWordsAt rest s

/-- Scan for the first position where one fix pattern matches
(`section.match(pattern)` without the global flag). -/
def findFixCapF (ws : List (List Char)) : Nat → List Char → Option (List Char)
  | 0, _ => none
  | _ + 1, [] => none
  | f + 1, c :: rest =>
    match tryFixWordsAt ws (c :: rest) with
    | some cap => some cap
    | none => findFixCapF ws f rest

/-- One iteration of the `extractSuggestedFix` loop: a match whose trimmed
capture has length at most 5 is discarded and the loop moves on. -/
def fixFromPattern (ws : List (List Char)) (sec : List Char) : Option (List Char) :=
  match findFixCapF ws sec.length sec with
  | some cap => if 5 < (jsTrim cap).length then some (jsTrim cap) else none
  | none => none

/-- `extractSuggestedFix`: the three patterns in order; `none` models the
`null` return. -/
def extractSuggestedFix (sec : List Char) : Option (List Char) :=
  match fixFromPattern fixWordsA sec with
  | some r => some r
  | none =>
    match fixFromPattern fixWordsB sec with
    | some r => some r
    | none => fixFromPattern fixWordsC sec

def expQuoteDot : List Char := "\".".toList

def expSugFix : List Char := " Suggested fix: ".toList

def sufSecurity : List Char := " This security issue should be addressed immediately.".toList

def sufPerformance : List Char := " This performance issue may impact user experience.".toList

def sufBug : List Char := " This bug could cause runtime errors.".toList

def sufStyle : List Char := " This style issue affects code readability.".toList

def sufOptimization : List Char := " This optimization can improve code efficiency.".toList

/-- The per-type closing sentence of `generateCleanExplanation`. -/
def typeSuffix (ty : List Char) : List Char :=
  if ty = tySecurity then sufSecurity
  else if ty = tyPerformance then sufPerformance
  else if ty = tyBug then sufBug
  else if ty = tyStyle then sufStyle
  else if ty = tyOptimization then sufOptimization
  else []

/-- `generateCleanExplanation` (the severity argument is accepted and unused,
as in the source; an empty code line is falsy in JavaScript, so its clause is
skipped). -/
def generateCleanExplanation (ty : List Char) (_sev : Severity) (issue codeLine : List Char)
    (fx : Option (List Char)) : List Char :=
  let e1 := if codeLine.isEmpty then issue else issue ++ expFoundIn ++ jsTrim codeLine ++ expQuoteDot
  let e2 :=
    match fx with
    | some f => e1 ++ expSugFix ++ f
    | none => e1
  e2 ++ typeSuffix ty

/-- Build the suggestion for one extracted line number of a block (`none`
models a `NaN` entry, which fails the positivity test). -/
def tier2Build (lines : List (List Char)) (ty : List Char) (sev : Severity)
    (desc : List Char) (fx : Option (List Char)) : Option Nat → Option Suggestion
  | none => none
  | some n =>
    if 0 < n ∧ n ≤ lines.length then
      some
        { type := ty
          severity := sev
          line := some n
          message := desc
          suggestion := fx
          explanation := generateCleanExplanation ty sev desc (lines.getD (n - 1) []) fx }
    else none

/-- Tier 2 processing of one section: sections whose trimmed text is shorter
than 20 characters are skipped; a section produces suggestions only through
its extracted line numbers (there is no branch for sections without one). -/
def sectionSuggestions (lines : List (List Char)) (sec : List Char) : List Suggestion :=
  if (jsTrim sec).length < 20 then []
  else
    let nums := (findLineMentions sec).map mentionNum
    let ts := analyzeSectionType sec
    let desc := extractIssueDescription sec
    let fx := extractSuggestedFix sec
    if nums.isEmpty then []
    else nums.filterMap (tier2Build lines ts.1 ts.2 desc fx)

/-- Tier 2 of `parseAIResponse`: split into sections, process each in order. -/
def heuristicTier (text : List Char) (lines : List (List Char)) : List Suggestion :=
  (splitSections text).flatMap (sectionSuggestions lines)

def msgReviewCompleted : List Char := "Code review completed".toList

def expReviewCompleted : List Char :=
  "The AI has analyzed your code. While no specific issues were detected, consider reviewing the code for best practices and potential improvements.".toList

/-- The synthetic tier-3 suggestion. -/
def degenerateSuggestion : Suggestion :=
  { type := tyStyle
    severity := Severity.low
    message := msgReviewCompleted
    explanation := expReviewCompleted }

/-- `parseAIResponse`: the tiered pipeline; a later tier runs only when every
earlier tier produced nothing. -/
def parseAIResponse (text code : List Char) : List Suggestion :=
  let lines := splitOn '\n' code
  let t1 := strictGrammarTier text lines
  if t1.isEmpty then
    let t2 := heuristicTier text lines
    if t2.isEmpty then [degenerateSuggestion] else t2
  else t1

/-! ### Summary extraction, review generation, orchestration, store -/

def isSummaryPunct (c : Char) : Bool :=
  c == '.' || c == '!' || c == '?'

/-- `aiResponse.split(/[.!?]+/)`: split on maximal runs of sentence
punctuation. -/
def splitPunct : Nat → List Char → List (List Char)
  | 0, s => [s]
  | _ + 1, [] => [[]]
  | f + 1, c :: rest =>
    if isSummaryPunct c then [] :: splitPunct f (rest.dropWhile isSummaryPunct)
    else
      match splitPunct f rest with
      | [] => [[c]]
      | h :: t => (c :: h) :: t

def joinSep : List Char := ". ".toList

def dotLit : List Char := ".".toList

/-- `extractSummary`: first two sentence chunks, joined, trimmed, dotted. -/
def extractSummary (aiResponse : List Char) : List Char :=
  jsTrim (List.intercalate joinSep ((splitPunct aiResponse.length aiResponse).take 2)) ++ dotLit

def msgFallback : List Char := "Unable to generate AI review at this time".toList

def expFallback : List Char :=
  "The AI service is temporarily unavailable. Please try again later.".toList

def sumFallback : List Char := "AI review service is temporarily unavailable.".toList

/-- The single suggestion of the degraded (completion-failure) response. -/
def fallbackSuggestion : Suggestion :=
  { type := tyBug
    severity := Severity.medium
    message := msgFallback
    explanation := expFallback }

/-- The review response: `reviewId` (random) and `timestamp` (clock) are
omitted as opaque. -/
structure ReviewResult where
  suggestions : List Suggestion
  summary : List Char
  confidence : Rat
deriving DecidableEq, Repr

/-- `generateCodeReview`: on a successful completion the response text is
parsed and summarized with fixed confidence 0.85; when the completion call
throws, the catch block builds the degraded response. The prompt strings
built from the request only influence the oracle's answer, which is already
the `ai` parameter, so they do not appear here. -/
def generateCodeReview (ai : Option (List Char)) (code : List Char) : ReviewResult :=
  match ai with
  | some resp =>
    { suggestions := parseAIResponse resp code
      summary := extractSummary resp
      confidence := 85 / 100 }
  | none =>
    { suggestions := [fallbackSuggestion]
      summary := sumFallback
      confidence := 0 }

inductive Role
  | user
  | assistant
deriving DecidableEq, Repr

/-- A row of `conversation_history` as written by the agent (ids, session and
timestamp columns are opaque to the claims about writes). -/
structure StoredMsg where
  role : Role
  content : List Char
  codeContext : Option (List Char) := none
deriving DecidableEq, Repr

/-- `storeConversationMessage`: the insert either succeeds (append) or throws;
the catch block swallows the error, so a failing write leaves the store
unchanged and the caller cannot observe the failure. -/
def storeConversationMessage (failing : Bool) (store : List StoredMsg) (m : StoredMsg) :
    List StoredMsg :=
  if failing then store else store ++ [m]

def reqPre : List Char := "Code review request for ".toList

def reqSuf : List Char := " code".toList

/-- `handleCodeReview`: generate the review (successful or degraded), then
append the synthetic user turn and the assistant turn, then return the
response.  Each write carries its own failure flag. -/
def handleCodeReview (ai : Option (List Char)) (language code : List Char)
    (store : List StoredMsg) (userWriteFails assistantWriteFails : Bool) :
    List StoredMsg × ReviewResult :=
  let res := generateCodeReview ai code
  let s1 := storeConversationMessage userWriteFails store
    { role := Role.user, content := reqPre ++ language ++ reqSuf, codeContext := some code }
  let s2 := storeConversationMessage assistantWriteFails s1
    { role := Role.assistant, content := res.summary }
  (s2, res)

def apologyText : List Char :=
  "I apologize, but I encountered an issue generating a response. Please try again.".toList

/-- `generateChatResponse`: the raw completion text, with a falsy (empty or
absent) response and a thrown completion both replaced by the apology. -/
def generateChatResponse (ai : Option (List Char)) : List Char :=
  match ai with
  | some r => if r.isEmpty then apologyText else r
  | none => apologyText

/-- `handleChat`: store the user turn, generate, store the assistant turn,
return the response text.  Each write carries its own failure flag and a
failure is swallowed by `storeConversationMessage`. -/
def handleChat (ai : Option (List Char)) (message : List Char)
    (store : List StoredMsg) (userWriteFails assistantWriteFails : Bool) :
    List StoredMsg × List Char :=
  let s1 := storeConversationMessage userWriteFails store
    { role := Role.user, content := message }
  let resp := generateChatResponse ai
  let s2 := storeConversationMessage assistantWriteFails s1
    { role := Role.assistant, content := resp }
  (s2, resp)

/-! ### Conversation history loading -/

/-- A persisted `conversation_history` row as read back. -/
structure HistoryRow where
  sessionId : Nat
  role : Role
  content : List Char
  timestamp : Nat
deriving DecidableEq, Repr

/-- The `ORDER BY timestamp DESC` relation. -/
def tsGe (a b : HistoryRow) : Prop := b.timestamp ≤ a.timestamp

instance : DecidableRel tsGe := fun a b => Nat.decLe b.timestamp a.timestamp

instance : IsTotal HistoryRow tsGe := ⟨fun a b => Nat.le_total b.timestamp a.timestamp⟩

instance : IsTrans HistoryRow tsGe := ⟨fun _ _ _ hab hbc => le_trans hbc hab⟩

/-- `loadConversationHistory`: the query
`SELECT * FROM conversation_history WHERE session_id = ? ORDER BY timestamp
DESC LIMIT 10`, whose rows are then mapped field-by-field (a renaming, kept
as the identity here) without reordering. -/
def loadConversationHistory (sessionId : Nat) (db : List HistoryRow) : List HistoryRow :=
  ((db.filter (fun r => r.sessionId == sessionId)).insertionSort tsGe).take 10

/-- Adjacent-pairs check that a list is in chronological (oldest-first)
order. -/
def chronAscB : List HistoryRow → Bool
  | [] => true
  | [_] => true
  | a :: b :: t => decide (a.timestamp ≤ b.timestamp) && chronAscB (b :: t)

/-- Adjacent-pairs check that a list is in reverse chronological
(newest-first) order. -/
def chronDescB : List HistoryRow → Bool
  | [] => true
  | [_] => true
  | a :: b :: t => decide (b.timestamp ≤ a.timestamp) && chronDescB (b :: t)

/-! ### Derived tables and concrete inputs used by the claim theorems -/

/-- The severity table of the strict tier stated independently of the parser:
severity depends on the (lower-cased) tag alone. -/
def severityTable (ty : List Char) : Severity :=
  if ty = tySecurity ∨ ty = tyBug then Severity.high
  else if ty = tyStyle then Severity.low
  else Severity.medium

def kwUnavailable : List Char := "unavailable".toList

def c2Text : List Char := "Line 2: BUG Missing semicolon | Fix: add ;".toList

def c2Code : List Char := "a\nb\nc\nd\ne".toList

def c3Text : List Char := "Line 1: BUG severe crash | Fix: y".toList

def c3Code : List Char := "x".toList

def c3wText : List Char := "Line 1: STYLE y | Fix: z".toList

def c3wCode : List Char := "x".toList

def c5r1 : HistoryRow :=
  { sessionId := 1, role := Role.user, content := [], timestamp := 1 }

def c5r2 : HistoryRow :=
  { sessionId := 1, role := Role.assistant, content := [], timestamp := 2 }

def c5db : List HistoryRow := [c5r1, c5r2]

/-- A same-session row with the given timestamp. -/
def wRow (i : Nat) : HistoryRow :=
  { sessionId := 1, role := Role.user, content := [], timestamp := i }

def w5db : List HistoryRow := (List.range 11).map wRow

def c6Msg : List Char := "hello".toList

def c6Resp : List Char := "hi there".toList

def c6AssistRow : StoredMsg := { role := Role.assistant, content := c6Resp }

/-- The user turn `handleChat` appends. -/
def chatUserRow (message : List Char) : StoredMsg :=
  { role := Role.user, content := message }

/-- The assistant turn `handleChat` appends. -/
def chatAssistantRow (ai : Option (List Char)) : StoredMsg :=
  { role := Role.assistant, content := generateChatResponse ai }

def c7Text : List Char := "The code has several style problems overall".toList

def c7Code : List Char := "x".toList

def c7wSec : List Char := "line 2 is bad and this is long enough text".toList

def c7wCode : List Char := "a\nb\nc\nd\ne".toList

def c8Text : List Char := "Line 1: FOO bad thing | Fix: ok".toList

def c8Code : List Char := "x".toList

def tyFoo : List Char := "foo".toList

/-! ### Helper lemmas -/

/-- Case analysis on the tiered pipeline: the result is the nonempty strict
tier, or the nonempty heuristic tier, or the degenerate singleton. -/
theorem parseAIResponse_cases (text code : List Char) :
    (parseAIResponse text code = strictGrammarTier text (splitOn '\n' code) ∧
      strictGrammarTier text (splitOn '\n' code) ≠ []) ∨
    (parseAIResponse text code = heuristicTier text (splitOn '\n' code) ∧
      heuristicTier text (splitOn '\n' code) ≠ []) ∨
    parseAIResponse text code = [degenerateSuggestion] := by
  simp only [parseAIResponse]
  by_cases h1 : (strictGrammarTier text (splitOn '\n' code)).isEmpty
  · rw [if_pos h1]
    by_cases h2 : (heuristicTier text (splitOn '\n' code)).isEmpty
    · rw [if_pos h2]
      exact Or.inr (Or.inr rfl)
    · rw [if_neg h2]
      exact Or.inr (Or.inl ⟨rfl, by simpa [List.isEmpty_iff] using h2⟩)
  · rw [if_neg h1]
    exact Or.inl ⟨rfl, by simpa [List.isEmpty_iff] using h1⟩

theorem tier1Build_eq_some {lines : List (List Char)} {m : IssueMatch} {s : Suggestion}
    (h : tier1Build lines m = some s) :
    0 < natOfDigits m.numD ∧ natOfDigits m.numD ≤ lines.length ∧
    s.line = some (natOfDigits m.numD) ∧ s.type = lowerStr m.tag ∧
    s.severity = tierOneSeverity (lowerStr m.tag) := by
  simp only [tier1Build] at h
  split_ifs at h with hg
  · cases h
    exact ⟨hg.1, hg.2, rfl, rfl, rfl⟩

theorem tier2Build_eq_some {lines : List (List Char)} {ty : List Char} {sev : Severity}
    {desc : List Char} {fx : Option (List Char)} {o : Option Nat} {s : Suggestion}
    (h : tier2Build lines ty sev desc fx o = some s) :
    ∃ n, o = some n ∧ 0 < n ∧ n ≤ lines.length ∧ s.line = some n ∧
      s.type = ty ∧ s.severity = sev := by
  cases o with
  | none => simp [tier2Build] at h
  | some n =>
    simp only [tier2Build] at h
    split_ifs at h with hg
    · cases h
      exact ⟨n, rfl, hg.1, hg.2, rfl, rfl, rfl⟩

theorem mem_sectionSuggestions {lines : List (List Char)} {sec : List Char} {s : Suggestion}
    (h : s ∈ sectionSuggestions lines sec) :
    ∃ o, tier2Build lines (analyzeSectionType sec).1 (analyzeSectionType sec).2
        (extractIssueDescription sec) (extractSuggestedFix sec) o = some s := by
  simp only [sectionSuggestions] at h
  split_ifs at h
  · simp at h
  · simp at h
  · rw [List.mem_filterMap] at h
    obtain ⟨o, _, h2⟩ := h
    exact ⟨o, h2⟩

theorem mem_heuristicTier {text : List Char} {lines : List (List Char)} {s : Suggestion}
    (h : s ∈ heuristicTier text lines) :
    ∃ sec ∈ splitSections text, s ∈ sectionSuggestions lines sec := by
  simpa only [heuristicTier, List.mem_flatMap] using h

/-! ### Claim theorems -/

/-- C1: for every input text (including the empty string and text matching no
grammar) and every code snippet, `parseAIResponse` returns at least one
suggestion; when both the strict-grammar tier and the heuristic-block tier
yield zero results, it returns exactly the one synthetic suggestion, whose
type is `style` and severity `low`. -/
theorem parseAIResponse_never_empty (text code : List Char) :
    1 ≤ (parseAIResponse text code).length ∧
    degenerateSuggestion.type = tyStyle ∧
    degenerateSuggestion.severity = Severity.low ∧
    (strictGrammarTier text (splitOn '\n' code) = [] →
      heuristicTier text (splitOn '\n' code) = [] →
      parseAIResponse text code = [degenerateSuggestion]) := by
  refine ⟨?_, rfl, rfl, ?_⟩
  · rcases parseAIResponse_cases text code with ⟨hp, hne⟩ | ⟨hp, hne⟩ | hp <;> rw [hp]
    · exact Nat.succ_le_of_lt (List.length_pos.mpr hne)
    · exact Nat.succ_le_of_lt (List.length_pos.mpr hne)
    · exact le_refl 1
  · intro h1 h2
    simp [parseAIResponse, h1, h2]

/-- Witness for C1 at the empty response text and empty code. -/
theorem parseAIResponse_never_empty_witness :
    1 ≤ (parseAIResponse [] []).length ∧ parseAIResponse [] [] = [degenerateSuggestion] :=
  ⟨(parseAIResponse_never_empty [] []).1,
   (parseAIResponse_never_empty [] []).2.2.2 (by decide) (by decide)⟩

/-- C4: whenever the completion call fails, the review still returns a
well-formed result: exactly one fallback suggestion, confidence 0.0, and a
summary saying the service is unavailable.  (In the embedding the failure is
a value, not an exception, mirroring the catch block that never rethrows.) -/
theorem degraded_review_shape (code : List Char) :
    (generateCodeReview none code).suggestions = [fallbackSuggestion] ∧
    (generateCodeReview none code).suggestions.length = 1 ∧
    (generateCodeReview none code).confidence = 0 ∧
    (generateCodeReview none code).summary = sumFallback ∧
    containsL kwUnavailable sumFallback = true :=
  ⟨rfl, rfl, rfl, rfl, by decide⟩

/-- C10: the returned confidence is 0.85 exactly when the completion call
succeeds and 0.0 exactly when it fails, independent of the submitted code and
of the model's output, and always within the unit interval. -/
theorem confidence_two_valued (resp code : List Char) :
    (generateCodeReview (some resp) code).confidence = 85 / 100 ∧
    (generateCodeReview none code).confidence = 0 ∧
    ∀ ai : Option (List Char),
      0 ≤ (generateCodeReview ai code).confidence ∧
      (generateCodeReview ai code).confidence ≤ 1 := by
  refine ⟨rfl, rfl, ?_⟩
  intro ai
  cases ai <;> constructor <;> norm_num [generateCodeReview]

/-- C9: every review request, successful (`ai = some _`) or degraded
(`ai = none`), appends exactly two conversation turns — the synthetic user
turn describing the request, then the assistant turn carrying the summary —
before the response is returned (write failures are the store collaborator's
behaviour; both flags are false here). -/
theorem review_writes_two_turns (ai : Option (List Char)) (language code : List Char)
    (store : List StoredMsg) :
    (handleCodeReview ai language code store false false).1 =
      store ++ [{ role := Role.user, content := reqPre ++ language ++ reqSuf,
                  codeContext := some code },
                { role := Role.assistant, content := (generateCodeReview ai code).summary }] ∧
    (handleCodeReview ai language code store false false).2 = generateCodeReview ai code := by
  simp [handleCodeReview, storeConversationMessage]

/-- C6 counterexample: with the first write failing and the second
succeeding, the chat turn persists the assistant message without the user
message, and the caller-visible response is identical to the one of a fully
successful run — the partial failure is silent. -/
theorem chat_atomicity_counterexample :
    (handleChat (some c6Resp) c6Msg [] true false).1 = [c6AssistRow] ∧
    (handleChat (some c6Resp) c6Msg [] true false).2 =
      (handleChat (some c6Resp) c6Msg [] false false).2 := by
  decide

/-- C6 amended: the two chat turns are independent best-effort appends — each
write is skipped on its own failure, the response is returned unchanged in
every case, and no partial failure is reported; when both writes succeed,
exactly the user turn then the assistant turn are appended. -/
theorem chat_writes_best_effort (ai : Option (List Char)) (message : List Char)
    (store : List StoredMsg) (f1 f2 : Bool) :
    (handleChat ai message store f1 f2).1 =
      store ++ (if f1 then [] else [chatUserRow message]) ++
        (if f2 then [] else [chatAssistantRow ai]) ∧
    (handleChat ai message store f1 f2).2 = generateChatResponse ai := by
  cases f1 <;> cases f2 <;>
    simp [handleChat, storeConversationMessage, chatUserRow, chatAssistantRow]

/-- C8: evaluating the parser on a response whose tag is not one of the five
enumerated types: the tag is passed through lower-cased (violating the
declared union type of the `type` field) with the initial `medium` severity,
instead of falling back to `style` as the specification states. -/
theorem unrecognized_tag_passes_through :
    (parseAIResponse c8Text c8Code).map (fun s => s.type) = [tyFoo] ∧
    tyFoo ∉ [tySecurity, tyPerformance, tyStyle, tyBug, tyOptimization] ∧
    (parseAIResponse c8Text c8Code).map (fun s => s.severity) = [Severity.medium] := by
  decide

/-- The strict tier keeps exactly the matched in-bounds line numbers: the line
fields of its output are the matched numbers filtered to the valid range, so
an out-of-range match contributes nothing (dropped, never clamped). -/
theorem filterMap_line_eq (lines : List (List Char)) :
    ∀ ms : List IssueMatch,
      (ms.filterMap (tier1Build lines)).filterMap (fun s => s.line) =
      (ms.map (fun m => natOfDigits m.numD)).filter
        (fun n => decide (0 < n ∧ n ≤ lines.length))
  | [] => rfl
  | m :: ms => by
    simp only [List.filterMap_cons, List.map_cons, List.filter_cons]
    by_cases hg : 0 < natOfDigits m.numD ∧ natOfDigits m.numD ≤ lines.length
    · rw [show tier1Build lines m = some
        { type := lowerStr m.tag
          severity := tierOneSeverity (lowerStr m.tag)
          line := some (natOfDigits m.numD)
          message := jsTrim m.descRaw
          suggestion := some (jsTrim m.fixRaw)
          explanation := jsTrim m.descRaw ++ expFoundIn ++
            jsTrim (lines.getD (natOfDigits m.numD - 1) []) ++ expQuoteSugFix ++
            jsTrim m.fixRaw } from by simp only [tier1Build]; rw [if_pos hg]]
      rw [decide_eq_true hg]
      simp only [List.filterMap_cons, if_true]
      rw [filterMap_line_eq lines ms]
    · rw [show tier1Build lines m = none from by simp only [tier1Build]; rw [if_neg hg]]
      rw [decide_eq_false hg]
      exact filterMap_line_eq lines ms

/-- C2: every suggestion returned by `parseAIResponse` either has no line or
a line within the bounds of the submitted code, and in the strict tier the
retained line fields are exactly the matched numbers filtered to the valid
range (out-of-range numbers dropped, never clamped). -/
theorem suggestion_lines_in_bounds (text code : List Char) :
    (∀ s ∈ parseAIResponse text code,
      s.line = none ∨ ∃ n, s.line = some n ∧ 1 ≤ n ∧ n ≤ (splitOn '\n' code).length) ∧
    (strictGrammarTier text (splitOn '\n' code)).filterMap (fun s => s.line) =
      ((findIssueMatches text).map (fun m => natOfDigits m.numD)).filter
        (fun n => decide (0 < n ∧ n ≤ (splitOn '\n' code).length)) := by
  constructor
  · intro s hs
    rcases parseAIResponse_cases text code with ⟨hp, _⟩ | ⟨hp, _⟩ | hp <;> rw [hp] at hs
    · rw [strictGrammarTier, List.mem_filterMap] at hs
      obtain ⟨m, _, hm⟩ := hs
      obtain ⟨h1, h2, h3, _, _⟩ := tier1Build_eq_some hm
      exact Or.inr ⟨natOfDigits m.numD, h3, h1, h2⟩
    · obtain ⟨sec, _, hsec⟩ := mem_heuristicTier hs
      obtain ⟨o, ho⟩ := mem_sectionSuggestions hsec
      obtain ⟨n, _, h1, h2, h3, _, _⟩ := tier2Build_eq_some ho
      exact Or.inr ⟨n, h3, h1, h2⟩
    · rw [List.mem_singleton] at hs
      subst hs
      exact Or.inl rfl
  · exact filterMap_line_eq (splitOn '\n' code) (findIssueMatches text)

/-- Witness for C2 at a concrete grammar-conforming response over a five-line
snippet. -/
theorem suggestion_lines_in_bounds_witness :
    (((parseAIResponse c2Text c2Code).headD degenerateSuggestion).line = none ∨
      ∃ n, ((parseAIResponse c2Text c2Code).headD degenerateSuggestion).line = some n ∧
        1 ≤ n ∧ n ≤ (splitOn '\n' c2Code).length) ∧
    (strictGrammarTier c2Text (splitOn '\n' c2Code)).filterMap (fun s => s.line) =
      ((findIssueMatches c2Text).map (fun m => natOfDigits m.numD)).filter
        (fun n => decide (0 < n ∧ n ≤ (splitOn '\n' c2Code).length)) :=
  ⟨(suggestion_lines_in_bounds c2Text c2Code).1
      ((parseAIResponse c2Text c2Code).headD degenerateSuggestion) (by decide),
   (suggestion_lines_in_bounds c2Text c2Code).2⟩

theorem tierOneSeverity_eq_table (ty : List Char) : tierOneSeverity ty = severityTable ty := by
  unfold tierOneSeverity severityTable
  split_ifs <;> rfl

/-- C3 counterexample: a strict-tier match whose description contains the
escalation keyword "severe" still gets severity `high`, not `critical` — the
strict tier never escalates (the keyword escalation exists only in the
heuristic tier's `analyzeSectionType`). -/
theorem strict_severity_counterexample :
    containsL kwSevere ((parseAIResponse c3Text c3Code).headD degenerateSuggestion).message = true ∧
    ((parseAIResponse c3Text c3Code).headD degenerateSuggestion).type = tyBug ∧
    ((parseAIResponse c3Text c3Code).headD degenerateSuggestion).severity = Severity.high ∧
    ((parseAIResponse c3Text c3Code).headD degenerateSuggestion).severity ≠ Severity.critical := by
  decide

/-- C3 amended: in the strict-grammar tier, severity is a deterministic
function of the matched type alone — `security`/`bug` map to `high` (with no
keyword escalation to `critical`), `style` to `low`, and everything else
(including `performance`/`optimization`) to `medium`. -/
theorem strict_severity_function_of_type (text : List Char) (lines : List (List Char)) :
    ∀ s ∈ strictGrammarTier text lines, s.severity = severityTable s.type := by
  intro s hs
  rw [strictGrammarTier, List.mem_filterMap] at hs
  obtain ⟨m, _, hm⟩ := hs
  obtain ⟨_, _, _, hty, hsev⟩ := tier1Build_eq_some hm
  rw [hsev, hty, tierOneSeverity_eq_table]

/-- Witness for C3 (amended) at a concrete `STYLE` match. -/
theorem strict_severity_function_of_type_witness :
    ((strictGrammarTier c3wText (splitOn '\n' c3wCode)).headD degenerateSuggestion).severity =
      severityTable
        ((strictGrammarTier c3wText (splitOn '\n' c3wCode)).headD degenerateSuggestion).type :=
  strict_severity_function_of_type c3wText (splitOn '\n' c3wCode)
    ((strictGrammarTier c3wText (splitOn '\n' c3wCode)).headD degenerateSuggestion) (by decide)

/-- A list sorted for the newest-first relation passes the adjacent
newest-first check. -/
theorem sorted_chronDescB : ∀ l : List HistoryRow, List.Sorted tsGe l → chronDescB l = true
  | [], _ => rfl
  | [_], _ => rfl
  | a :: b :: t, h => by
    rw [List.sorted_cons] at h
    have hab : tsGe a b := h.1 b (List.mem_cons_self b t)
    have ht := sorted_chronDescB (b :: t) h.2
    unfold tsGe at hab
    simp [chronDescB, ht, hab]

/-- C5 counterexample: with two messages of one session at timestamps 1 and 2,
the loaded history is newest-first `[t=2, t=1]`, not chronological — the
`ORDER BY timestamp DESC` rows are returned without re-reversal. -/
theorem history_order_counterexample :
    loadConversationHistory 1 c5db = [c5r2, c5r1] ∧
    c5r1.timestamp < c5r2.timestamp ∧
    chronAscB (loadConversationHistory 1 c5db) = false := by
  decide

/-- C5 amended: loading recent conversation history returns the most recent
messages of the session, capped at 10, in reverse chronological order
(newest first): the result has at most 10 rows, adjacent timestamps are
non-increasing, and every session row left out is no newer than any row
returned. -/
theorem history_recent_capped_desc (sessionId : Nat) (db : List HistoryRow) :
    (loadConversationHistory sessionId db).length ≤ 10 ∧
    chronDescB (loadConversationHistory sessionId db) = true ∧
    ∀ m ∈ db.filter (fun r => r.sessionId == sessionId),
      m ∉ loadConversationHistory sessionId db →
      ∀ m2 ∈ loadConversationHistory sessionId db, m.timestamp ≤ m2.timestamp := by
  refine ⟨List.length_take_le 10 _, ?_, ?_⟩
  · exact sorted_chronDescB _
      ((List.sorted_insertionSort tsGe _).sublist (List.take_sublist 10 _))
  · intro m hm hnot m2 hm2
    have hmem : m ∈ (db.filter (fun r => r.sessionId == sessionId)).insertionSort tsGe := by
      rw [List.mem_insertionSort]
      exact hm
    rw [(List.take_append_drop 10
      ((db.filter (fun r => r.sessionId == sessionId)).insertionSort tsGe)).symm,
      List.mem_append] at hmem
    rcases hmem with hmem | hmem
    · exact absurd hmem hnot
    · have hp : List.Pairwise tsGe
          (((db.filter (fun r => r.sessionId == sessionId)).insertionSort tsGe).take 10 ++
           ((db.filter (fun r => r.sessionId == sessionId)).insertionSort tsGe).drop 10) := by
        rw [List.take_append_drop]
        exact List.sorted_insertionSort tsGe _
      exact (List.pairwise_append.mp hp).2.2 m2 hm2 m hmem

/-- Witness for C5 (amended) on an 11-row store: the cap and order hold and
the one excluded row (timestamp 0) is older than a returned row. -/
theorem history_recent_capped_desc_witness :
    (loadConversationHistory 1 w5db).length ≤ 10 ∧
    chronDescB (loadConversationHistory 1 w5db) = true ∧
    (wRow 0).timestamp ≤ (wRow 10).timestamp :=
  ⟨(history_recent_capped_desc 1 w5db).1,
   (history_recent_capped_desc 1 w5db).2.1,
   (history_recent_capped_desc 1 w5db).2.2 (wRow 0) (by decide) (by decide) (wRow 10) (by decide)⟩

/-- Counting lemma for the heuristic tier: the suggestions built from a list
of extracted (possibly failed) line numbers are exactly as many as the
successfully extracted in-bounds numbers. -/
theorem length_filterMap_tier2 (lines : List (List Char)) (ty : List Char) (sev : Severity)
    (desc : List Char) (fx : Option (List Char)) :
    ∀ nums : List (Option Nat),
      (nums.filterMap (tier2Build lines ty sev desc fx)).length =
      (nums.filterMap id).countP (fun n => decide (0 < n ∧ n ≤ lines.length))
  | [] => rfl
  | none :: nums => by
    simp only [List.filterMap_cons, tier2Build, id]
    exact length_filterMap_tier2 lines ty sev desc fx nums
  | some n :: nums => by
    simp only [List.filterMap_cons, tier2Build, id, List.countP_cons]
    by_cases hg : 0 < n ∧ n ≤ lines.length
    · rw [if_pos hg, decide_eq_true hg]
      simp only [List.length_cons, if_true]
      rw [length_filterMap_tier2 lines ty sev desc fx nums]
    · rw [if_neg hg, decide_eq_false hg]
      simp only [if_false, Nat.add_zero]
      exact length_filterMap_tier2 lines ty sev desc fx nums

/-- C7 counterexample: a block longer than the threshold but carrying no
"line N" mention yields no suggestion at all from the heuristic tier (the
source has no branch for mention-less blocks), not a single line-less one;
the whole parse falls through to the degenerate tier instead. -/
theorem heuristic_lineless_counterexample :
    20 ≤ (jsTrim c7Text).length ∧
    findLineMentions c7Text = [] ∧
    splitSections c7Text = [c7Text] ∧
    heuristicTier c7Text (splitOn '\n' c7Code) = [] ∧
    parseAIResponse c7Text c7Code = [degenerateSuggestion] := by
  decide

/-- C7 amended: a sufficiently long block yields one suggestion per
successfully extracted in-bounds line number — extraction succeeds only when
the mention's separator is recoverable by splitting the matched text on a
single space — and every suggestion of the heuristic tier carries a line
field, so blocks without a line mention (or with only failed extractions)
yield no suggestions, and in particular no line-less suggestion exists in
this tier. -/
theorem heuristic_block_suggestions (lines : List (List Char)) (sec : List Char)
    (h : 20 ≤ (jsTrim sec).length) :
    (sectionSuggestions lines sec).length =
      (((findLineMentions sec).map mentionNum).filterMap id).countP
        (fun n => decide (0 < n ∧ n ≤ lines.length)) ∧
    ∀ s ∈ sectionSuggestions lines sec, s.line.isSome = true := by
  constructor
  · simp only [sectionSuggestions]
    rw [if_neg (by omega)]
    by_cases he : ((findLineMentions sec).map mentionNum).isEmpty
    · rw [if_pos he]
      rw [List.isEmpty_iff] at he
      rw [he]
      rfl
    · rw [if_neg he]
      exact length_filterMap_tier2 lines _ _ _ _ _
  · intro s hs
    obtain ⟨o, ho⟩ := mem_sectionSuggestions hs
    obtain ⟨n, _, _, _, h3, _, _⟩ := tier2Build_eq_some ho
    rw [h3]
    rfl

/-- Witness for C7 (amended) at a long block with a single-space "line 2"
mention over a five-line snippet: exactly one suggestion, carrying a line. -/
theorem heuristic_block_suggestions_witness :
    ((sectionSuggestions (splitOn '\n' c7wCode) c7wSec).length =
      (((findLineMentions c7wSec).map mentionNum).filterMap id).countP
        (fun n => decide (0 < n ∧ n ≤ (splitOn '\n' c7wCode).length)) ∧
    ∀ s ∈ sectionSuggestions (splitOn '\n' c7wCode) c7wSec, s.line.isSome = true) ∧
    (sectionSuggestions (splitOn '\n' c7wCode) c7wSec).length = 1 :=
  ⟨heuristic_block_suggestions (splitOn '\n' c7wCode) c7wSec (by decide), by decide⟩
